import Mathlib

set_option maxRecDepth 20000

/-!
Verification of the perplexity-opencode plugin against its specification.

The development shallowly embeds the program's four source files:

* `keywords.ts` — keyword detection (`SEARCH_PATTERNS`, `RESEARCH_PATTERNS`,
  `removeCodeBlocks`, `compileCustomPatterns`, `detectKeywords`, the two
  nudge templates);
* `config.ts` — configuration loading (`loadConfig`, `isConfigured`);
* the plugin entry (`chat.message` hook of `PerplexityPlugin`);
* the installer CLI (`createPerplexityConfig`, `addPluginToConfig`,
  `addMcpServerToConfig`, `createNewConfig`, `updateAgentsMd`, `install`).

JavaScript regular-expression literals are translated into the `Regex`
syntax below (exactly the constructs the source's patterns use), and
`String.prototype.match` is modelled by a backtracking matcher (`mtch`,
`findFrom`) with JavaScript's leftmost-match, greedy/backtracking
semantics.  The `i` flag is modelled by ASCII case folding (`lowerAscii`),
which is how a JS engine canonicalises ASCII letters; `\s` and `\b` are
modelled over the ASCII whitespace/word characters the source's patterns
can interact with.
-/

/-! ### Characters and character classes -/

/-- The apostrophe character (code 39), used by the `what('s|\s+is)` patterns. -/
def apost : Char := Char.ofNat 39

/-- The backtick character (code 96), the code-span delimiter of `removeCodeBlocks`. -/
def btk : Char := Char.ofNat 96

/-- ASCII case folding: the canonicalisation a JS engine applies for the `i` flag
on ASCII letters (uppercase A–Z maps to a–z, all else unchanged). -/
def lowerAscii (c : Char) : Char :=
  if 65 ≤ c.toNat ∧ c.toNat ≤ 90 then Char.ofNat (c.toNat + 32) else c

/-- Whitespace class `\s` (space, tab, line feed, carriage return, vertical tab,
form feed: the ASCII whitespace characters). -/
def isWs (c : Char) : Bool :=
  decide (c.toNat = 32 ∨ c.toNat = 9 ∨ c.toNat = 10 ∨ c.toNat = 13 ∨
          c.toNat = 11 ∨ c.toNat = 12)

/-- Word characters `\w` = `[A-Za-z0-9_]`, the class JS word boundaries `\b` test. -/
def isWordChar (c : Char) : Bool :=
  decide ((65 ≤ c.toNat ∧ c.toNat ≤ 90) ∨ (97 ≤ c.toNat ∧ c.toNat ≤ 122) ∨
          (48 ≤ c.toNat ∧ c.toNat ≤ 57) ∨ c.toNat = 95)

/-- Whether the (optional) character on one side of a position is a word
character; the absent side of the string counts as non-word. -/
def wordish : Option Char → Bool
  | none => false
  | some c => isWordChar c

/-- Case-insensitive character comparison (the `i`-flag canonical equality). -/
def ciEq (x c : Char) : Bool := lowerAscii x == lowerAscii c

/-! ### Regular expressions

Exactly the syntax used by the pattern literals in `keywords.ts`:
literal characters, the class `[- ]`, `\s+`, word boundaries `\b`,
alternation, concatenation and `?`. -/

/-- Abstract syntax of the regular expressions appearing in `keywords.ts`. -/
inductive Regex where
  | eps : Regex
  | litc : Char → Regex
  | anyOf : List Char → Regex
  | wsPlus : Regex
  | wb : Regex
  | alt : Regex → Regex → Regex
  | cat : Regex → Regex → Regex
  | opt : Regex → Regex
deriving Repr, DecidableEq

/-- The character preceding the rest of the input after `m` has been consumed,
given the character `prev` that preceded `m`. -/
def lastc (prev : Option Char) (m : List Char) : Option Char :=
  match m.getLast? with
  | some c => some c
  | none => prev

/-- All ways a regex can match a prefix of `s`, as pairs (consumed, rest),
in the JS backtracking engine's priority order (greedy first; alternatives
left to right).  `prev` is the character immediately before `s` in the whole
subject string (`none` at the start), needed for word boundaries. -/
def mtch : Regex → Option Char → List Char → List (List Char × List Char)
  | .eps, _, s => [([], s)]
  | .litc _, _, [] => []
  | .litc c, _, x :: rest => if ciEq x c then [([x], rest)] else []
  | .anyOf _, _, [] => []
  | .anyOf cs, _, x :: rest => if cs.any (fun c => ciEq x c) then [([x], rest)] else []
  | .wsPlus, _, s =>
      (List.range (s.takeWhile isWs).length).map
        (fun i => (s.take ((s.takeWhile isWs).length - i),
                   s.drop ((s.takeWhile isWs).length - i)))
  | .wb, prev, s => if wordish prev != wordish s.head? then [([], s)] else []
  | .alt a b, prev, s => mtch a prev s ++ mtch b prev s
  | .cat a b, prev, s =>
      (mtch a prev s).flatMap
        (fun p1 => (mtch b (lastc prev p1.1) p1.2).map
          (fun p2 => (p1.1 ++ p2.1, p2.2)))
  | .opt a, prev, s => mtch a prev s ++ [([], s)]

/-- `String.prototype.match` without the `g` flag: try each start position from
the left; at the first position with a match, return the engine's first
(highest-priority) match there.  Returns the matched text. -/
def findFrom (r : Regex) : Option Char → List Char → Option (List Char)
  | prev, [] =>
      match mtch r prev [] with
      | p :: _ => some p.1
      | [] => none
  | prev, c :: rest =>
      match mtch r prev (c :: rest) with
      | p :: _ => some p.1
      | [] => findFrom r (some c) rest

/-! ### The pattern tables of `keywords.ts` -/

/-- A sequence of literal characters (a plain word inside a pattern). -/
def litWordL : List Char → Regex
  | [] => .eps
  | c :: cs => .cat (.litc c) (litWordL cs)

/-- A word literal written as a string. -/
def litWord (w : String) : Regex := litWordL w.data

/-- An alternation `(w1|w2|…)` of word literals, associated to the right
in the source order. -/
def wordAlt : List String → Regex
  | [] => .eps
  | [w] => litWord w
  | w :: ws => .alt (litWord w) (wordAlt ws)

/-- Concatenation of a list of regexes, in order. -/
def seq : List Regex → Regex
  | [] => .eps
  | r :: rs => .cat r (seq rs)

/-- The built-in search-trigger patterns (`SEARCH_PATTERNS` of `keywords.ts`),
in source order. -/
def SEARCH_PATTERNS : List Regex :=
  [ -- /\bsearch\s+(the\s+)?(web|internet|online)\b/i
    seq [.wb, litWord "search", .wsPlus, .opt (seq [litWord "the", .wsPlus]),
         wordAlt ["web", "internet", "online"], .wb],
    -- /\bweb\s+search\b/i
    seq [.wb, litWord "web", .wsPlus, litWord "search", .wb],
    -- /\blook\s+up\b/i
    seq [.wb, litWord "look", .wsPlus, litWord "up", .wb],
    -- /\bfind\s+(me\s+)?(information|info|details)\s+(about|on|for)\b/i
    seq [.wb, litWord "find", .wsPlus, .opt (seq [litWord "me", .wsPlus]),
         wordAlt ["information", "info", "details"], .wsPlus,
         wordAlt ["about", "on", "for"], .wb],
    -- /\bwhat('s|\s+is)\s+(the\s+)?(latest|current|recent)\b/i
    seq [.wb, litWord "what",
         .alt (seq [.litc apost, .litc 's']) (seq [.wsPlus, litWord "is"]),
         .wsPlus, .opt (seq [litWord "the", .wsPlus]),
         wordAlt ["latest", "current", "recent"], .wb],
    -- /\bresearch\b/i
    seq [.wb, litWord "research", .wb],
    -- /\binvestigate\b/i
    seq [.wb, litWord "investigate", .wb],
    -- /\bfind\s+out\b/i
    seq [.wb, litWord "find", .wsPlus, litWord "out", .wb],
    -- /\b(latest|recent|current)\s+(news|updates|developments)\b/i
    seq [.wb, wordAlt ["latest", "recent", "current"], .wsPlus,
         wordAlt ["news", "updates", "developments"], .wb],
    -- /\bwhat('s|\s+is)\s+happening\b/i
    seq [.wb, litWord "what",
         .alt (seq [.litc apost, .litc 's']) (seq [.wsPlus, litWord "is"]),
         .wsPlus, litWord "happening", .wb],
    -- /\bbreaking\s+news\b/i
    seq [.wb, litWord "breaking", .wsPlus, litWord "news", .wb],
    -- /\bfind\s+(the\s+)?docs?\b/i
    seq [.wb, litWord "find", .wsPlus, .opt (seq [litWord "the", .wsPlus]),
         litWord "doc", .opt (.litc 's'), .wb],
    -- /\bdocumentation\s+for\b/i
    seq [.wb, litWord "documentation", .wsPlus, litWord "for", .wb],
    -- /\bhow\s+do\s+(I|you|we)\b/i
    seq [.wb, litWord "how", .wsPlus, litWord "do", .wsPlus,
         wordAlt ["I", "you", "we"], .wb],
    -- /\bwhat\s+is\s+the\s+best\s+way\b/i
    seq [.wb, litWord "what", .wsPlus, litWord "is", .wsPlus, litWord "the",
         .wsPlus, litWord "best", .wsPlus, litWord "way", .wb],
    -- /\bwho\s+(is|was|are|were)\b/i
    seq [.wb, litWord "who", .wsPlus, wordAlt ["is", "was", "are", "were"], .wb],
    -- /\bwhen\s+(did|was|is|will)\b/i
    seq [.wb, litWord "when", .wsPlus, wordAlt ["did", "was", "is", "will"], .wb],
    -- /\bwhere\s+(is|are|can|do)\b/i
    seq [.wb, litWord "where", .wsPlus, wordAlt ["is", "are", "can", "do"], .wb],
    -- /\bhow\s+(much|many|long|far)\b/i
    seq [.wb, litWord "how", .wsPlus, wordAlt ["much", "many", "long", "far"], .wb],
    -- /\bcompare\b/i
    seq [.wb, litWord "compare", .wb],
    -- /\balternatives?\s+to\b/i
    seq [.wb, litWord "alternative", .opt (.litc 's'), .wsPlus, litWord "to", .wb],
    -- /\bvs\.?\b/i
    seq [.wb, litWord "vs", .opt (.litc '.'), .wb],
    -- /\bversus\b/i
    seq [.wb, litWord "versus", .wb],
    -- /\bperplexity\b/i
    seq [.wb, litWord "perplexity", .wb],
    -- /\bask\s+perplexity\b/i
    seq [.wb, litWord "ask", .wsPlus, litWord "perplexity", .wb],
    -- /\buse\s+perplexity\b/i
    seq [.wb, litWord "use", .wsPlus, litWord "perplexity", .wb] ]

/-- The research-trigger patterns (`RESEARCH_PATTERNS` of `keywords.ts`),
in source order. -/
def RESEARCH_PATTERNS : List Regex :=
  [ -- /\bdeep\s+(dive|research|analysis)\b/i
    seq [.wb, litWord "deep", .wsPlus, wordAlt ["dive", "research", "analysis"], .wb],
    -- /\bcomprehensive\s+(search|research|analysis)\b/i
    seq [.wb, litWord "comprehensive", .wsPlus,
         wordAlt ["search", "research", "analysis"], .wb],
    -- /\bthorough(ly)?\s+(research|investigate|search)\b/i
    seq [.wb, litWord "thorough", .opt (litWord "ly"), .wsPlus,
         wordAlt ["research", "investigate", "search"], .wb],
    -- /\bin[- ]depth\s+(research|analysis)\b/i
    seq [.wb, litWord "in", .anyOf ['-', ' '], litWord "depth", .wsPlus,
         wordAlt ["research", "analysis"], .wb],
    -- /\bdetailed\s+(research|analysis|report)\b/i
    seq [.wb, litWord "detailed", .wsPlus,
         wordAlt ["research", "analysis", "report"], .wb] ]

/-! ### `removeCodeBlocks` -/

/-- Split a character list at the first occurrence of a triple backtick:
returns the part before the fence and the part after it.  A list shorter
than three characters cannot contain a fence. -/
def splitAtFence : List Char → Option (List Char × List Char)
  | c1 :: c2 :: c3 :: rest =>
      if c1 = btk ∧ c2 = btk ∧ c3 = btk then some ([], rest)
      else (splitAtFence (c2 :: c3 :: rest)).map (fun p => (c1 :: p.1, p.2))
  | _ => none

/-- Global replacement of lazily matched fenced code blocks
(the `text.replace(/```[\s\S]*?```/g, "")` step): each fence opens at the
first triple backtick and closes at the next one; an unclosed fence is left
in place, as the JS regex then fails to match.  The `fuel` argument only
bounds the recursion (each replaced fence removes at least six characters,
so a fuel of the input length never runs out). -/
def removeFencedF : Nat → List Char → List Char
  | 0, cs => cs
  | fuel + 1, cs =>
      match splitAtFence cs with
      | none => cs
      | some p =>
          match splitAtFence p.2 with
          | none => cs
          | some q => p.1 ++ removeFencedF fuel q.2

/-- The fenced-block replacement at adequate fuel. -/
def removeFenced (cs : List Char) : List Char := removeFencedF cs.length cs

/-- Global replacement of inline code spans
(the `result.replace(/`[^`]+`/g, "")` step): a backtick, at least one
non-backtick, and a closing backtick; an opening backtick with no valid
closing is kept, and scanning continues right after it.  The `fuel`
argument only bounds the recursion (each step consumes at least one
character). -/
def removeInlineF : Nat → List Char → List Char
  | 0, cs => cs
  | _ + 1, [] => []
  | fuel + 1, c :: rest =>
      if c = btk then
        (if (rest.takeWhile (fun x => x ≠ btk)).length > 0 ∧
                rest.drop (rest.takeWhile (fun x => x ≠ btk)).length ≠ [] then
          removeInlineF fuel (rest.drop ((rest.takeWhile (fun x => x ≠ btk)).length + 1))
        else c :: removeInlineF fuel rest)
      else c :: removeInlineF fuel rest

/-- The inline-span replacement at adequate fuel. -/
def removeInline (cs : List Char) : List Char := removeInlineF cs.length cs

/-- The `removeCodeBlocks` function of `keywords.ts`: strip fenced code
blocks, then inline code spans. -/
def removeCodeBlocks (text : String) : String :=
  String.mk (removeInline (removeFenced text.data))

/-- JavaScript `String.prototype.trim` (whitespace stripped from both ends). -/
def jsTrim (s : String) : String :=
  String.mk (((s.data.dropWhile isWs).reverse.dropWhile isWs).reverse)

/-- JavaScript `String.prototype.trimEnd` (whitespace stripped from the end). -/
def jsTrimEnd (s : String) : String :=
  String.mk ((s.data.reverse.dropWhile isWs).reverse)

/-! ### Configuration (`config.ts`) -/

/-- The `keywords` section of `PerplexityConfig` (all fields optional in the
TypeScript interface). -/
structure KeywordsSettings where
  enabled : Option Bool
  customPatterns : Option (List String)
deriving Repr, DecidableEq

/-- The `PerplexityConfig` interface of `config.ts`: `apiKey` is required,
the remaining fields are optional. -/
structure PerplexityConfig where
  apiKey : String
  mcpUrl : Option String
  model : Option String
  keywords : Option KeywordsSettings
deriving Repr, DecidableEq

/-- A `Partial<PerplexityConfig>` as produced by `loadConfigFile` (every
field may be absent). -/
structure FileConfig where
  apiKey : Option String
  mcpUrl : Option String
  model : Option String
  keywords : Option KeywordsSettings
deriving Repr, DecidableEq

/-- JavaScript `a || b` for an optional string `a` (absent and the empty
string are falsy). -/
def jsOrStr (a : Option String) (b : String) : String :=
  match a with
  | none => b
  | some s => if s = "" then b else s

/-- The `loadConfig` function of `config.ts`, as a pure function of the
parsed config-file contents and the three environment variables it reads.
`apiKey` is `fileConfig.apiKey || process.env.PERPLEXITY_API_KEY || ""`,
and similarly for `mcpUrl` and `model`; `keywords` defaults `enabled` to
`true` and `customPatterns` to `[]` with nullish coalescing. -/
def loadConfig (fileConfig : FileConfig)
    (envApiKey envMcpUrl envModel : Option String) : PerplexityConfig :=
  { apiKey := jsOrStr fileConfig.apiKey (jsOrStr envApiKey ""),
    mcpUrl := some (jsOrStr fileConfig.mcpUrl (jsOrStr envMcpUrl "stdio://perplexity-mcp")),
    model := some (jsOrStr fileConfig.model (jsOrStr envModel "sonar")),
    keywords := some
      { enabled := some ((fileConfig.keywords.bind KeywordsSettings.enabled).getD true),
        customPatterns :=
          some ((fileConfig.keywords.bind KeywordsSettings.customPatterns).getD []) } }

/-- The `isConfigured` predicate of `config.ts` (`!!config.apiKey`). -/
def isConfigured (cfg : PerplexityConfig) : Bool := cfg.apiKey ≠ ""

/-! ### Keyword detection (`keywords.ts`) -/

/-- The two match categories of `KeywordMatch.type`. -/
inductive MatchType where
  | search : MatchType
  | research : MatchType
deriving Repr, DecidableEq

/-- The `KeywordMatch` result type of `detectKeywords`. -/
structure KeywordMatch where
  type : MatchType
  matchedText : String
deriving Repr, DecidableEq

/-- The `compileCustomPatterns` function: compile each configured custom
pattern string, skipping those that fail to compile (`new RegExp` throwing
is modelled by the compiler `rc` returning `none`; the source logs a warning
and filters the `null`s out). -/
def compileCustomPatterns (rc : String → Option Regex)
    (cfg : PerplexityConfig) : List Regex :=
  ((cfg.keywords.bind KeywordsSettings.customPatterns).getD []).filterMap rc

/-- One `for` loop of `detectKeywords`: try `cleaned.match(pattern)` for each
pattern in order, returning the first pattern's match. -/
def scanPatterns : List Regex → List Char → Option (List Char)
  | [], _ => none
  | p :: ps, s =>
      match findFrom p none s with
      | some m => some m
      | none => scanPatterns ps s

/-- The `detectKeywords` function of `keywords.ts`: no match when detection
is disabled (`!config.keywords?.enabled`); otherwise strip code spans and
scan the research patterns, then the compiled custom patterns, then the
search patterns, returning the first match with its category and text. -/
def detectKeywords (rc : String → Option Regex) (cfg : PerplexityConfig)
    (message : String) : Option KeywordMatch :=
  if (cfg.keywords.bind KeywordsSettings.enabled) = some true then
    let cleanedMessage := removeCodeBlocks message
    match scanPatterns RESEARCH_PATTERNS cleanedMessage.data with
    | some m => some { type := .research, matchedText := String.mk m }
    | none =>
        match scanPatterns (compileCustomPatterns rc cfg) cleanedMessage.data with
        | some m => some { type := .search, matchedText := String.mk m }
        | none =>
            match scanPatterns SEARCH_PATTERNS cleanedMessage.data with
            | some m => some { type := .search, matchedText := String.mk m }
            | none => none
  else none

/-- The `getSearchNudge` template of `keywords.ts`. -/
def getSearchNudge : String :=
  "<perplexity-hint>\nThe user's message suggests they want to search the web for information.\n\nYou have access to the Perplexity MCP server with the following tool:\n- **perplexity_search_web**: Search the web using Perplexity AI\n  - Parameters:\n    - query (required): The search query\n    - recency (optional): Filter by \"day\", \"week\", \"month\", or \"year\"\n\nUse this tool to find current, accurate information from the web. Perplexity provides AI-powered search with citations.\n\nExample usage:\n- For recent news: use recency=\"day\" or recency=\"week\"\n- For general information: use recency=\"month\" (default)\n- For historical context: use recency=\"year\"\n</perplexity-hint>"

/-- The `getResearchNudge` template of `keywords.ts`. -/
def getResearchNudge : String :=
  "<perplexity-hint>\nThe user wants comprehensive research on a topic.\n\nYou have access to the Perplexity MCP server with the **perplexity_search_web** tool.\n\nFor in-depth research:\n1. Break the topic into multiple focused queries\n2. Use different recency filters to get both recent and historical context\n3. Cross-reference information from multiple searches\n4. Synthesize findings into a comprehensive response with citations\n\nThe Perplexity API returns results with citations - always include these in your response to support your findings.\n</perplexity-hint>"

/-! ### The `chat.message` hook (plugin entry) -/

/-- A message part (the SDK's `Part` type), with the fields the hook reads
and writes.  `ptype` is the part's `type` tag (the hook filters for
`"text"`). -/
structure MessagePart where
  id : String
  sessionID : String
  messageID : String
  ptype : String
  text : String
  synthetic : Bool
deriving Repr, DecidableEq

/-- Rendering of a match category as in the source's template strings. -/
def MatchType.str : MatchType → String
  | .search => "search"
  | .research => "research"

/-- The nudge text chosen by the hook:
`match.type === "research" ? getResearchNudge() : getSearchNudge()`. -/
def nudgeFor (m : KeywordMatch) : String :=
  if m.type = MatchType.research then getResearchNudge else getSearchNudge

/-- The synthetic nudge part the hook appends on a match (`now` models
`Date.now()`). -/
def mkNudgePart (m : KeywordMatch) (now : Nat) (sid mid : String) : MessagePart :=
  { id := "perplexity-" ++ m.type.str ++ "-nudge-" ++ toString now,
    sessionID := sid,
    messageID := mid,
    ptype := "text",
    text := nudgeFor m,
    synthetic := true }

/-- The body of the hook's `try` block, in an exception monad: filter the
text parts, join them, return early (leaving the parts unchanged) when
there are none or the joined text is blank, run the detector, and on a
match append the nudge part.  The detector argument may throw, modelling
an unexpected exception during message processing. -/
def hookBody (det : String → Except String (Option KeywordMatch))
    (now : Nat) (sid mid : String) (parts : List MessagePart) :
    Except String (List MessagePart) :=
  let textParts := parts.filter (fun p => p.ptype == "text")
  if textParts.isEmpty then Except.ok parts
  else
    let userMessage := String.intercalate "\n" (textParts.map MessagePart.text)
    if jsTrim userMessage == "" then Except.ok parts
    else
      match det userMessage with
      | Except.error e => Except.error e
      | Except.ok none => Except.ok parts
      | Except.ok (some m) => Except.ok (parts ++ [mkNudgePart m now sid mid])

/-- The `chat.message` handler of `PerplexityPlugin`: skip all work when
unconfigured; otherwise run the body under the hook-boundary `try`/`catch` —
an exception is caught (and logged) and the parts are returned as they were,
so nothing ever propagates to the host. -/
def chatMessage (cfg : PerplexityConfig)
    (det : String → Except String (Option KeywordMatch))
    (now : Nat) (sid mid : String) (parts : List MessagePart) : List MessagePart :=
  if isConfigured cfg then
    match hookBody det now sid mid parts with
    | Except.ok res => res
    | Except.error _ => parts
  else parts

/-- The non-throwing detector instance actually installed by the plugin. -/
def pluginDet (rc : String → Option Regex) (cfg : PerplexityConfig)
    (msg : String) : Except String (Option KeywordMatch) :=
  Except.ok (detectKeywords rc cfg msg)

/-! ### The installer -/

/-- The plugin identifier the installer registers (`PLUGIN_NAME`). -/
def PLUGIN_NAME : String := "perplexity-opencode@latest"

/-- The usage documentation the installer appends to `AGENTS.md`
(`PERPLEXITY_AGENTS_INSTRUCTIONS`), split around the marker heading the
presence check looks for. -/
def agentsInstructionsPre : String :=
  "\n---\nname: perplexity\ndescription: Use Perplexity MCP server for web search and research. Invoke when needing to search the web for current information, news, documentation, or factual queries.\n---\n\n"

/-- The part of the instructions following the marker heading. -/
def agentsInstructionsPost : String :=
  "\n\nPerplexity provides AI-powered web search with citations. Use it when you need up-to-date information from the web.\n\n## When to Use Perplexity\n\n- **Current events and news**: Latest updates, breaking news, recent developments\n- **Factual queries**: Who, what, when, where, how questions\n- **Documentation lookups**: Finding official docs, API references, guides\n- **Comparisons**: Comparing technologies, products, alternatives\n- **Research**: Investigating topics, gathering information\n\n## Available Tool\n\n### perplexity_search_web\n\nSearch the web using Perplexity AI.\n\n**Parameters:**\n- `query` (required): The search query\n- `recency` (optional): Filter by time period\n  - `day`: Last 24 hours\n  - `week`: Last 7 days\n  - `month`: Last 30 days (default)\n  - `year`: Last year\n\n**Example Usage:**\n\n```\n// For recent news\nperplexity_search_web(query=\"latest TypeScript 5.4 features\", recency=\"week\")\n\n// For general information\nperplexity_search_web(query=\"best practices for React error boundaries\")\n\n// For historical context\nperplexity_search_web(query=\"history of JavaScript frameworks\", recency=\"year\")\n```\n\n## Best Practices\n\n1. **Be specific**: Use clear, focused queries for better results\n2. **Use recency filters**: Match the filter to your needs\n   - Breaking news: `day`\n   - Recent developments: `week`\n   - General info: `month`\n   - Historical: `year`\n3. **Include citations**: Perplexity returns sources - always cite them in your responses\n4. **Multiple queries**: For comprehensive research, use multiple targeted searches\n5. **Cross-reference**: For important facts, verify across multiple queries\n"

/-- The full `PERPLEXITY_AGENTS_INSTRUCTIONS` template string. -/
def PERPLEXITY_AGENTS_INSTRUCTIONS : String :=
  agentsInstructionsPre ++ "# How to use Perplexity" ++ agentsInstructionsPost

/-- Whether `hay.includes(needle)` holds, on character lists. -/
def isPrefixOfL : List Char → List Char → Bool
  | [], _ => true
  | _ :: _, [] => false
  | a :: as, b :: bs => a == b && isPrefixOfL as bs

/-- Substring occurrence check (JavaScript `String.prototype.includes`). -/
def containsSub (needle : List Char) : List Char → Bool
  | [] => isPrefixOfL needle []
  | c :: rest => isPrefixOfL needle (c :: rest) || containsSub needle rest

/-- JavaScript `hay.includes(needle)` on strings. -/
def hasSubstr (needle hay : String) : Bool := containsSub needle.data hay.data

/-- The parsed shape of the host's `opencode.json` that the installer edits:
its `plugin` list and the set of configured `mcp` server names.  The
source reads and rewrites the JSON file; the model works on the parsed
value, and renders the raw-text `content.includes("perplexity-opencode")`
check over the plugin entries, which is where the installer writes that
identifier. -/
structure OpencodeConfig where
  plugin : List String
  mcp : List String
deriving Repr, DecidableEq

/-- The machine state the installer edits: the contents of
`perplexity.json`, the host config (when present), and `AGENTS.md`
(`none` = file absent). -/
structure InstallState where
  perplexityJson : Option String
  opencodeConfig : Option OpencodeConfig
  agentsMd : Option String
deriving Repr, DecidableEq

/-- The `JSON.stringify(config, null, 2)` rendering written by
`createPerplexityConfig`. -/
def perplexityConfigContent (apiKey : String) : String :=
  "\x7b\n  \"apiKey\": \"" ++ apiKey ++
  "\",\n  \"keywords\": \x7b\n    \"enabled\": true\n  \x7d\n\x7d"

/-- The `createPerplexityConfig` step: writes `perplexity.json`
unconditionally (there is no presence check in the source). -/
def createPerplexityConfig (apiKey : String) (st : InstallState) : InstallState :=
  { st with perplexityJson := some (perplexityConfigContent apiKey) }

/-- The `addPluginToConfig` step on the parsed host config: no-op when the
plugin identifier is already present, otherwise push `PLUGIN_NAME` onto the
`plugin` list. -/
def addPluginToConfig (c : OpencodeConfig) : OpencodeConfig :=
  if c.plugin.any (fun p => hasSubstr "perplexity-opencode" p) then c
  else { c with plugin := c.plugin ++ [PLUGIN_NAME] }

/-- The `addMcpServerToConfig` step: no-op when an `mcp.perplexity` entry
exists, otherwise add it. -/
def addMcpServerToConfig (c : OpencodeConfig) : OpencodeConfig :=
  if c.mcp.contains "perplexity" then c
  else { c with mcp := c.mcp ++ ["perplexity"] }

/-- The `createNewConfig` step: the fresh `opencode.json` contents. -/
def createNewConfig : OpencodeConfig :=
  { plugin := [PLUGIN_NAME], mcp := ["perplexity"] }

/-- The `updateAgentsMd` step: create `AGENTS.md` with the instructions, or
append them unless the marker heading is already present. -/
def updateAgentsMd (st : InstallState) : InstallState :=
  match st.agentsMd with
  | none => { st with agentsMd := some (jsTrim PERPLEXITY_AGENTS_INSTRUCTIONS ++ "\n") }
  | some content =>
      if hasSubstr "# How to use Perplexity" content then st
      else
        { st with
          agentsMd := some
            (jsTrimEnd content ++ "\n\n" ++ jsTrim PERPLEXITY_AGENTS_INSTRUCTIONS ++ "\n") }

/-- The effect of `install({ tui: false, apiKey })` on the files it edits
(steps 2–4 of the installer; steps 1 and 5 only print).  With no API key,
step 2 and the MCP registration are skipped; with no host config and an
API key, a fresh config is created. -/
def runInstall (apiKey : String) (st : InstallState) : InstallState :=
  let st2 := if apiKey = "" then st else createPerplexityConfig apiKey st
  let st3 :=
    match st2.opencodeConfig with
    | some c =>
        let c2 := addPluginToConfig c
        { st2 with
          opencodeConfig := some (if apiKey = "" then c2 else addMcpServerToConfig c2) }
    | none =>
        if apiKey = "" then st2
        else { st2 with opencodeConfig := some createNewConfig }
  updateAgentsMd st3

/-! ### Matcher lemmas: building matches compositionally -/

theorem mem_mtch_eps (prev : Option Char) (s : List Char) :
    ([], s) ∈ mtch .eps prev s := by simp [mtch]

theorem mem_mtch_wb {prev : Option Char} {s : List Char}
    (h : wordish prev ≠ wordish s.head?) : ([], s) ∈ mtch .wb prev s := by
  simp [mtch, bne_iff_ne, h]

theorem mem_mtch_litc {x c : Char} (h : ciEq x c = true)
    (prev : Option Char) (rest : List Char) :
    ([x], rest) ∈ mtch (.litc c) prev (x :: rest) := by
  simp [mtch, h]

theorem mem_mtch_anyOf {x : Char} {cs : List Char}
    (h : cs.any (fun c => ciEq x c) = true)
    (prev : Option Char) (rest : List Char) :
    ([x], rest) ∈ mtch (.anyOf cs) prev (x :: rest) := by
  simp only [mtch, h]
  simp

theorem mem_mtch_ws1 {x : Char} (h : isWs x = true)
    (prev : Option Char) (rest : List Char) :
    ([x], rest) ∈ mtch .wsPlus prev (x :: rest) := by
  simp only [mtch, List.mem_map, List.mem_range]
  refine ⟨(rest.takeWhile isWs).length, ?_, ?_⟩
  · simp [List.takeWhile, h]
  · simp [List.takeWhile, h]

theorem mem_mtch_alt_left {a b : Regex} {prev : Option Char} {s : List Char}
    {p : List Char × List Char} (h : p ∈ mtch a prev s) :
    p ∈ mtch (.alt a b) prev s := by
  simp [mtch, h]

theorem mem_mtch_alt_right {a b : Regex} {prev : Option Char} {s : List Char}
    {p : List Char × List Char} (h : p ∈ mtch b prev s) :
    p ∈ mtch (.alt a b) prev s := by
  simp [mtch, h]

theorem mem_mtch_opt_some {a : Regex} {prev : Option Char} {s : List Char}
    {p : List Char × List Char} (h : p ∈ mtch a prev s) :
    p ∈ mtch (.opt a) prev s := by
  simp [mtch, h]

theorem mem_mtch_opt_none (a : Regex) (prev : Option Char) (s : List Char) :
    ([], s) ∈ mtch (.opt a) prev s := by
  simp [mtch]

theorem mem_mtch_cat {a b : Regex} {prev : Option Char} {s : List Char}
    {m1 r1 m2 r2 : List Char}
    (h1 : (m1, r1) ∈ mtch a prev s)
    (h2 : (m2, r2) ∈ mtch b (lastc prev m1) r1) :
    (m1 ++ m2, r2) ∈ mtch (.cat a b) prev s := by
  simp only [mtch, List.mem_flatMap, List.mem_map]
  exact ⟨(m1, r1), h1, (m2, r2), h2, rfl⟩

theorem mem_mtch_litWordL {xs cs : List Char}
    (h : List.Forall₂ (fun x c => ciEq x c = true) xs cs) :
    ∀ prev rest, (xs, rest) ∈ mtch (litWordL cs) prev (xs ++ rest) := by
  induction h with
  | nil => intro prev rest; simpa [litWordL] using mem_mtch_eps prev rest
  | @cons x c xs cs hxc _ ih =>
      intro prev rest
      have := mem_mtch_cat (mem_mtch_litc hxc prev (xs ++ rest)) (ih (lastc prev [x]) rest)
      simpa [litWordL] using this

/-! ### Matcher lemmas: from a match at a position to `findFrom` success -/

theorem lastc_cons (prev : Option Char) (c : Char) (l : List Char) :
    lastc prev (c :: l) = lastc (some c) l := by
  cases l with
  | nil => simp [lastc]
  | cons d t =>
      simp only [lastc, List.getLast?_cons_cons]
      cases hdt : (d :: t).getLast? with
      | none => simp at hdt
      | some e => rfl

theorem findFrom_isSome_of_mtch :
    ∀ (pre : List Char) (r : Regex) (prev0 : Option Char) (s : List Char),
      mtch r (lastc prev0 pre) s ≠ [] →
      (findFrom r prev0 (pre ++ s)).isSome = true := by
  intro pre
  induction pre with
  | nil =>
      intro r prev0 s h
      simp only [lastc] at h
      cases s with
      | nil =>
          simp only [List.nil_append, findFrom]
          cases hm : mtch r prev0 [] with
          | nil => exact absurd hm h
          | cons p t => simp
      | cons c rest =>
          simp only [List.nil_append, findFrom]
          cases hm : mtch r prev0 (c :: rest) with
          | nil => exact absurd hm h
          | cons p t => simp
  | cons c pre' ih =>
      intro r prev0 s h
      rw [lastc_cons] at h
      simp only [List.cons_append, findFrom]
      cases hm : mtch r prev0 (c :: (pre' ++ s)) with
      | cons p t => simp
      | nil => exact ih r (some c) s h

theorem scanPatterns_isSome_of_mem {p : Regex} {ps : List Regex}
    (hmem : p ∈ ps) {s : List Char}
    (h : (findFrom p none s).isSome = true) :
    (scanPatterns ps s).isSome = true := by
  induction ps with
  | nil => cases hmem
  | cons q qs ih =>
      simp only [scanPatterns]
      cases hq : findFrom q none s with
      | some m => simp
      | none =>
          rcases List.mem_cons.mp hmem with rfl | hmem'
          · rw [hq] at h; cases h
          · exact ih hmem'

/-! ### `detectKeywords` characterisation lemmas -/

theorem detectKeywords_research {rc : String → Option Regex}
    {cfg : PerplexityConfig} {msg : String}
    (hen : cfg.keywords.bind KeywordsSettings.enabled = some true)
    (h : (scanPatterns RESEARCH_PATTERNS (removeCodeBlocks msg).data).isSome = true) :
    ∃ t, detectKeywords rc cfg msg =
      some { type := MatchType.research, matchedText := t } := by
  rw [Option.isSome_iff_exists] at h
  obtain ⟨m, hm⟩ := h
  exact ⟨String.mk m, by simp [detectKeywords, hen, hm]⟩

/-! ### Case-folding helper lemmas -/

theorem lowerAscii_toNat (x : Char) :
    (lowerAscii x).toNat =
      if 65 ≤ x.toNat ∧ x.toNat ≤ 90 then x.toNat + 32 else x.toNat := by
  unfold lowerAscii
  split
  · rename_i h
    have hv : (x.toNat + 32).isValidChar := Or.inl (by omega)
    rw [Char.ofNat, dif_pos hv]
    simp [Char.ofNatAux, Char.toNat, UInt32.toNat, BitVec.toNat_ofNatLt]
  · simp

theorem isWordChar_of_lower {x c : Char} (h : lowerAscii x = c)
    (hc : 97 ≤ c.toNat ∧ c.toNat ≤ 122) : isWordChar x = true := by
  have ht := congrArg Char.toNat h
  rw [lowerAscii_toNat] at ht
  rw [isWordChar, decide_eq_true_iff]
  split at ht <;> omega

theorem isWs_of_lower_sp {x : Char} (h : lowerAscii x = ' ') : isWs x = true := by
  have ht := congrArg Char.toNat h
  rw [lowerAscii_toNat] at ht
  have hsp : (' ' : Char).toNat = 32 := rfl
  rw [isWs, decide_eq_true_iff]
  split at ht <;> omega

theorem ciEq_of_lower {x c : Char} (h : lowerAscii x = c)
    (hc : lowerAscii c = c) : ciEq x c = true := by
  simp [ciEq, h, hc]

theorem forall2_ciEq_of_lower {xs cs : List Char}
    (h : List.Forall₂ (fun x c => lowerAscii x = c) xs cs)
    (hcs : ∀ c ∈ cs, lowerAscii c = c) :
    List.Forall₂ (fun x c => ciEq x c = true) xs cs := by
  induction h with
  | nil => exact List.Forall₂.nil
  | @cons x c xs cs hxc _ ih =>
      exact List.Forall₂.cons (ciEq_of_lower hxc (hcs c (by simp)))
        (ih (fun d hd => hcs d (by simp [hd])))

theorem forall₂_append_split {α β : Type} {R : α → β → Prop} :
    ∀ {cs1 cs2 : List β} {xs : List α}, List.Forall₂ R xs (cs1 ++ cs2) →
      ∃ x1 x2, xs = x1 ++ x2 ∧ List.Forall₂ R x1 cs1 ∧ List.Forall₂ R x2 cs2 := by
  intro cs1
  induction cs1 with
  | nil => intro cs2 xs h; exact ⟨[], xs, rfl, List.Forall₂.nil, h⟩
  | cons c cs1' ih =>
      intro cs2 xs h
      rw [List.cons_append] at h
      obtain ⟨x, l', hxc, hl', rfl⟩ := List.forall₂_cons_right_iff.mp h
      obtain ⟨x1, x2, rfl, h1, h2⟩ := ih hl'
      exact ⟨x :: x1, x2, rfl, List.Forall₂.cons hxc h1, h2⟩

theorem lastc_nil (prev : Option Char) : lastc prev [] = prev := rfl

theorem lastc_singleton (prev : Option Char) (x : Char) :
    lastc prev [x] = some x := by simp [lastc]

theorem lastc_none_eq (l : List Char) : lastc none l = l.getLast? := by
  cases h : l.getLast? <;> simp [lastc, h]

theorem lastc_wordish_of_var {v2 cs : List Char}
    (h : List.Forall₂ (fun x c => lowerAscii x = c) v2 cs)
    (hcs : ∀ c ∈ cs, 97 ≤ c.toNat ∧ c.toNat ≤ 122)
    (hne : v2 ≠ []) :
    ∀ p : Option Char, wordish (lastc p v2) = true := by
  induction h with
  | nil => exact absurd rfl hne
  | @cons x c xs cs hxc htail ih =>
      intro p
      cases xs with
      | nil =>
          rw [lastc_singleton]
          exact isWordChar_of_lower hxc (hcs c (by simp))
      | cons y ys =>
          rw [lastc_cons]
          have hcs' : ∀ d ∈ cs, 97 ≤ d.toNat ∧ d.toNat ≤ 122 :=
            fun d hd => hcs d (by simp [hd])
          exact ih hcs' (by simp) (some x)

theorem mem_mtch_wordAlt {w : String} :
    ∀ {ws : List String}, w ∈ ws →
      ∀ {xs : List Char},
        List.Forall₂ (fun x c => ciEq x c = true) xs w.data →
        ∀ (prev : Option Char) (rest : List Char),
          (xs, rest) ∈ mtch (wordAlt ws) prev (xs ++ rest) := by
  intro ws
  induction ws with
  | nil => intro h; cases h
  | cons v vs ih =>
      intro hmem xs hvar prev rest
      cases vs with
      | nil =>
          have : w = v := by simpa using hmem
          subst this
          simpa [wordAlt, litWord] using mem_mtch_litWordL hvar prev rest
      | cons v2 vs' =>
          rcases List.mem_cons.mp hmem with rfl | hmem'
          · exact mem_mtch_alt_left (by simpa [litWord] using mem_mtch_litWordL hvar prev rest)
          · exact mem_mtch_alt_right (ih hmem' hvar prev rest)

theorem lowerAscii_eq_self {c : Char} (h : ¬(65 ≤ c.toNat ∧ c.toNat ≤ 90)) :
    lowerAscii c = c := by
  unfold lowerAscii
  rw [if_neg h]

/-! ### Research-pattern completeness lemmas

These show each `RESEARCH_PATTERNS` entry matches an occurrence of one of
its phrases, written in arbitrary ASCII letter casing (the variant list is
related to the canonical lowercase phrase pointwise by `lowerAscii`),
at a word-boundary position. -/

theorem mem_mtch_tailWs {ws : List String} {w2 : String} (hmem : w2 ∈ ws)
    {v2 post : List Char} {sp : Char}
    (hsp : isWs sp = true)
    (hvar2 : List.Forall₂ (fun x c => lowerAscii x = c) v2 w2.data)
    (hw2lower : ∀ c ∈ w2.data, 97 ≤ c.toNat ∧ c.toNat ≤ 122)
    (hw2ne : w2.data ≠ [])
    (hpost : wordish post.head? = false)
    (prevt : Option Char) :
    (sp :: v2, post) ∈ mtch (seq [.wsPlus, wordAlt ws, .wb]) prevt (sp :: (v2 ++ post)) := by
  have hv2ne : v2 ≠ [] := by
    intro h
    subst h
    exact hw2ne (List.forall₂_nil_left_iff.mp hvar2)
  have hciEq2 := forall2_ciEq_of_lower hvar2
    (fun c hc => lowerAscii_eq_self (by have := hw2lower c hc; omega))
  have hwb2 : ∀ p : Option Char, ([], post) ∈ mtch .wb (lastc p v2) post := fun p =>
    mem_mtch_wb (by simp [lastc_wordish_of_var hvar2 hw2lower hv2ne p, hpost])
  have t1 : ∀ p : Option Char, ([], post) ∈ mtch (seq [Regex.wb]) (lastc p v2) post := by
    intro p
    have := mem_mtch_cat (hwb2 p) (mem_mtch_eps (lastc (lastc p v2) []) post)
    simpa [seq] using this
  have t2 : ∀ p : Option Char, (v2, post) ∈ mtch (seq [wordAlt ws, Regex.wb]) p (v2 ++ post) := by
    intro p
    have := mem_mtch_cat (mem_mtch_wordAlt hmem hciEq2 p post) (t1 p)
    simpa [seq] using this
  have t3 := mem_mtch_cat (mem_mtch_ws1 hsp prevt (v2 ++ post)) (t2 (lastc prevt [sp]))
  simpa [seq] using t3

theorem mem_mtch_stemPat (w1 : String) (ws : List String) {w2 : String} (hmem : w2 ∈ ws)
    {v1 v2 post : List Char} {sp : Char} {prev : Option Char}
    (hvar1 : List.Forall₂ (fun x c => lowerAscii x = c) v1 w1.data)
    (hw1lower : ∀ c ∈ w1.data, 97 ≤ c.toNat ∧ c.toNat ≤ 122)
    (hw1ne : w1.data ≠ [])
    (hsp : lowerAscii sp = ' ')
    (hvar2 : List.Forall₂ (fun x c => lowerAscii x = c) v2 w2.data)
    (hw2lower : ∀ c ∈ w2.data, 97 ≤ c.toNat ∧ c.toNat ≤ 122)
    (hw2ne : w2.data ≠ [])
    (hprev : wordish prev = false)
    (hpost : wordish post.head? = false) :
    (v1 ++ sp :: v2, post) ∈
      mtch (seq [.wb, litWord w1, .wsPlus, wordAlt ws, .wb]) prev
        ((v1 ++ sp :: v2) ++ post) := by
  match v1, hvar1 with
  | [], hvar1 => exact absurd (List.forall₂_nil_left_iff.mp hvar1) hw1ne
  | x :: v1', hvar1 =>
      obtain ⟨c, u', hxc, _, hu⟩ := List.forall₂_cons_left_iff.mp hvar1
      have hx : isWordChar x = true :=
        isWordChar_of_lower hxc (hw1lower c (by rw [hu]; simp))
      have hciEq1 := forall2_ciEq_of_lower hvar1
        (fun c hc => lowerAscii_eq_self (by have := hw1lower c hc; omega))
      have hlit : (x :: v1', sp :: (v2 ++ post)) ∈
          mtch (litWord w1) prev ((x :: v1') ++ (sp :: (v2 ++ post))) := by
        simpa [litWord] using mem_mtch_litWordL hciEq1 prev (sp :: (v2 ++ post))
      have htail := mem_mtch_tailWs hmem (isWs_of_lower_sp hsp) hvar2 hw2lower hw2ne hpost
        (lastc prev (x :: v1'))
      have hcat1 := mem_mtch_cat hlit htail
      have hhead : wordish ((x :: v1') ++ (sp :: (v2 ++ post))).head? = true := by
        simp [wordish, hx]
      have hwb1 : ([], (x :: v1') ++ (sp :: (v2 ++ post))) ∈
          mtch .wb prev ((x :: v1') ++ (sp :: (v2 ++ post))) :=
        mem_mtch_wb (by rw [hprev, hhead]; simp)
      have hfull := mem_mtch_cat hwb1 hcat1
      simpa [seq] using hfull

theorem mem_mtch_thoroughPat (ws : List String) {w2 : String} (hmem : w2 ∈ ws)
    {v1 vo v2 post : List Char} {sp : Char} {prev : Option Char}
    (hvar1 : List.Forall₂ (fun x c => lowerAscii x = c) v1 "thorough".data)
    (hopt : vo = [] ∨ List.Forall₂ (fun x c => lowerAscii x = c) vo "ly".data)
    (hsp : lowerAscii sp = ' ')
    (hvar2 : List.Forall₂ (fun x c => lowerAscii x = c) v2 w2.data)
    (hw2lower : ∀ c ∈ w2.data, 97 ≤ c.toNat ∧ c.toNat ≤ 122)
    (hw2ne : w2.data ≠ [])
    (hprev : wordish prev = false)
    (hpost : wordish post.head? = false) :
    (v1 ++ (vo ++ sp :: v2), post) ∈
      mtch (seq [.wb, litWord "thorough", .opt (litWord "ly"), .wsPlus, wordAlt ws, .wb])
        prev ((v1 ++ (vo ++ sp :: v2)) ++ post) := by
  have hw1lower : ∀ c ∈ "thorough".data, 97 ≤ c.toNat ∧ c.toNat ≤ 122 := by decide
  match v1, hvar1 with
  | [], hvar1 => exact absurd (List.forall₂_nil_left_iff.mp hvar1) (by decide)
  | x :: v1', hvar1 =>
      obtain ⟨c, u', hxc, _, hu⟩ := List.forall₂_cons_left_iff.mp hvar1
      have hx : isWordChar x = true :=
        isWordChar_of_lower hxc (hw1lower c (by rw [hu]; simp))
      have hciEq1 := forall2_ciEq_of_lower hvar1
        (fun c hc => lowerAscii_eq_self (by have := hw1lower c hc; omega))
      have hlit : (x :: v1', vo ++ (sp :: (v2 ++ post))) ∈
          mtch (litWord "thorough") prev
            ((x :: v1') ++ (vo ++ (sp :: (v2 ++ post)))) := by
        simpa [litWord] using mem_mtch_litWordL hciEq1 prev (vo ++ (sp :: (v2 ++ post)))
      have hoptm : (vo, sp :: (v2 ++ post)) ∈
          mtch (.opt (litWord "ly")) (lastc prev (x :: v1'))
            (vo ++ (sp :: (v2 ++ post))) := by
        rcases hopt with rfl | hvo
        · simpa using mem_mtch_opt_none (litWord "ly") (lastc prev (x :: v1'))
            (sp :: (v2 ++ post))
        · have hciEqo := forall2_ciEq_of_lower hvo (by decide)
          have hlity := mem_mtch_litWordL hciEqo (lastc prev (x :: v1')) (sp :: (v2 ++ post))
          exact mem_mtch_opt_some (by simpa [litWord] using hlity)
      have htail := mem_mtch_tailWs hmem (isWs_of_lower_sp hsp) hvar2 hw2lower hw2ne hpost
        (lastc (lastc prev (x :: v1')) vo)
      have c2 := mem_mtch_cat hoptm htail
      have c1 := mem_mtch_cat hlit c2
      have hhead : wordish ((x :: v1') ++ (vo ++ (sp :: (v2 ++ post)))).head? = true := by
        simp [wordish, hx]
      have hwb1 : ([], (x :: v1') ++ (vo ++ (sp :: (v2 ++ post)))) ∈
          mtch .wb prev ((x :: v1') ++ (vo ++ (sp :: (v2 ++ post)))) :=
        mem_mtch_wb (by rw [hprev, hhead]; simp)
      have c0 := mem_mtch_cat hwb1 c1
      simpa [seq] using c0

theorem mem_mtch_inDepthPat (ws : List String) {w2 : String} (hmem : w2 ∈ ws)
    {vi vd v2 post : List Char} {hy sp : Char} {prev : Option Char}
    (hvari : List.Forall₂ (fun x c => lowerAscii x = c) vi "in".data)
    (hhy : lowerAscii hy = '-' ∨ lowerAscii hy = ' ')
    (hvard : List.Forall₂ (fun x c => lowerAscii x = c) vd "depth".data)
    (hsp : lowerAscii sp = ' ')
    (hvar2 : List.Forall₂ (fun x c => lowerAscii x = c) v2 w2.data)
    (hw2lower : ∀ c ∈ w2.data, 97 ≤ c.toNat ∧ c.toNat ≤ 122)
    (hw2ne : w2.data ≠ [])
    (hprev : wordish prev = false)
    (hpost : wordish post.head? = false) :
    (vi ++ (hy :: (vd ++ sp :: v2)), post) ∈
      mtch (seq [.wb, litWord "in", .anyOf ['-', ' '], litWord "depth", .wsPlus,
                 wordAlt ws, .wb])
        prev ((vi ++ (hy :: (vd ++ sp :: v2))) ++ post) := by
  have hw1lower : ∀ c ∈ "in".data, 97 ≤ c.toNat ∧ c.toNat ≤ 122 := by decide
  have hwdlower : ∀ c ∈ "depth".data, 97 ≤ c.toNat ∧ c.toNat ≤ 122 := by decide
  match vi, hvari with
  | [], hvari => exact absurd (List.forall₂_nil_left_iff.mp hvari) (by decide)
  | x :: vi', hvari =>
      obtain ⟨c, u', hxc, _, hu⟩ := List.forall₂_cons_left_iff.mp hvari
      have hx : isWordChar x = true :=
        isWordChar_of_lower hxc (hw1lower c (by rw [hu]; simp))
      have hciEqi := forall2_ciEq_of_lower hvari
        (fun c hc => lowerAscii_eq_self (by have := hw1lower c hc; omega))
      have hciEqd := forall2_ciEq_of_lower hvard
        (fun c hc => lowerAscii_eq_self (by have := hwdlower c hc; omega))
      have hliti : (x :: vi', hy :: (vd ++ (sp :: (v2 ++ post)))) ∈
          mtch (litWord "in") prev
            ((x :: vi') ++ (hy :: (vd ++ (sp :: (v2 ++ post))))) := by
        simpa [litWord] using mem_mtch_litWordL hciEqi prev
          (hy :: (vd ++ (sp :: (v2 ++ post))))
      have hany : ∀ p : Option Char, ([hy], vd ++ (sp :: (v2 ++ post))) ∈
          mtch (.anyOf ['-', ' ']) p (hy :: (vd ++ (sp :: (v2 ++ post)))) := by
        intro p
        refine mem_mtch_anyOf ?_ p (vd ++ (sp :: (v2 ++ post)))
        rcases hhy with h | h
        · simp [ciEq_of_lower h (by decide)]
        · simp [ciEq_of_lower h (by decide)]
      have hlitd : ∀ p : Option Char, (vd, sp :: (v2 ++ post)) ∈
          mtch (litWord "depth") p (vd ++ (sp :: (v2 ++ post))) := by
        intro p
        simpa [litWord] using mem_mtch_litWordL hciEqd p (sp :: (v2 ++ post))
      have htail := fun p => mem_mtch_tailWs hmem (isWs_of_lower_sp hsp) hvar2 hw2lower
        hw2ne hpost p
      have c4 := mem_mtch_cat (hlitd (lastc (lastc prev (x :: vi')) [hy]))
        (htail (lastc (lastc (lastc prev (x :: vi')) [hy]) vd))
      have c3 := mem_mtch_cat (hany (lastc prev (x :: vi'))) c4
      have c2 := mem_mtch_cat hliti c3
      have hhead : wordish ((x :: vi') ++ (hy :: (vd ++ (sp :: (v2 ++ post))))).head? = true := by
        simp [wordish, hx]
      have hwb1 : ([], (x :: vi') ++ (hy :: (vd ++ (sp :: (v2 ++ post))))) ∈
          mtch .wb prev ((x :: vi') ++ (hy :: (vd ++ (sp :: (v2 ++ post))))) :=
        mem_mtch_wb (by rw [hprev, hhead]; simp)
      have c0 := mem_mtch_cat hwb1 c2
      simpa [seq] using c0

theorem detect_research_of_elem {rc : String → Option Regex} {cfg : PerplexityConfig}
    {msg : String}
    (hen : cfg.keywords.bind KeywordsSettings.enabled = some true)
    {p : Regex} (hp : p ∈ RESEARCH_PATTERNS) {pre phv post : List Char}
    (hsplit : (removeCodeBlocks msg).data = pre ++ phv ++ post)
    (helem : (phv, post) ∈ mtch p (lastc none pre) (phv ++ post)) :
    ∃ t, detectKeywords rc cfg msg =
      some { type := MatchType.research, matchedText := t } := by
  apply detectKeywords_research hen
  apply scanPatterns_isSome_of_mem hp
  rw [hsplit, List.append_assoc]
  exact findFrom_isSome_of_mtch pre p none (phv ++ post) (List.ne_nil_of_mem helem)

/-- The fixed research-trigger phrases: the word sequences (with a single
separating space, and both spellings of `in[- ]depth`) accepted by the
`RESEARCH_PATTERNS` table. -/
def researchPhrases : List String :=
  ["deep dive", "deep research", "deep analysis",
   "comprehensive search", "comprehensive research", "comprehensive analysis",
   "thorough research", "thorough investigate", "thorough search",
   "thoroughly research", "thoroughly investigate", "thoroughly search",
   "in-depth research", "in-depth analysis", "in depth research", "in depth analysis",
   "detailed research", "detailed analysis", "detailed report"]

/-- C9: for every message containing one of the fixed research-trigger
phrases — in any ASCII letter casing (`phv` is a pointwise case variant of
the canonical phrase), occurring at a word-boundary position of the text
that remains after code spans are stripped — with detection enabled,
`detectKeywords` returns a match of category `research`. -/
theorem research_phrase_yields_research
    (rc : String → Option Regex) (cfg : PerplexityConfig) (msg : String)
    (ph : String) (hph : ph ∈ researchPhrases)
    (phv pre post : List Char)
    (hvar : List.Forall₂ (fun x c => lowerAscii x = c) phv ph.data)
    (hsplit : (removeCodeBlocks msg).data = pre ++ phv ++ post)
    (hpre : wordish pre.getLast? = false)
    (hpost : wordish post.head? = false)
    (hen : cfg.keywords.bind KeywordsSettings.enabled = some true) :
    ∃ t, detectKeywords rc cfg msg =
      some { type := MatchType.research, matchedText := t } := by
  have hprev : wordish (lastc none pre) = false := by rw [lastc_none_eq]; exact hpre
  have hp1 : seq [Regex.wb, litWord "deep", Regex.wsPlus,
      wordAlt ["dive", "research", "analysis"], Regex.wb] ∈ RESEARCH_PATTERNS := by
    unfold RESEARCH_PATTERNS
    exact List.mem_cons_self _ _
  have hp2 : seq [Regex.wb, litWord "comprehensive", Regex.wsPlus,
      wordAlt ["search", "research", "analysis"], Regex.wb] ∈ RESEARCH_PATTERNS := by
    unfold RESEARCH_PATTERNS
    exact List.mem_cons_of_mem _ (List.mem_cons_self _ _)
  have hp3 : seq [Regex.wb, litWord "thorough", .opt (litWord "ly"), Regex.wsPlus,
      wordAlt ["research", "investigate", "search"], Regex.wb] ∈ RESEARCH_PATTERNS := by
    unfold RESEARCH_PATTERNS
    exact List.mem_cons_of_mem _ (List.mem_cons_of_mem _ (List.mem_cons_self _ _))
  have hp4 : seq [Regex.wb, litWord "in", .anyOf ['-', ' '], litWord "depth", Regex.wsPlus,
      wordAlt ["research", "analysis"], Regex.wb] ∈ RESEARCH_PATTERNS := by
    unfold RESEARCH_PATTERNS
    exact List.mem_cons_of_mem _ (List.mem_cons_of_mem _ (List.mem_cons_of_mem _
      (List.mem_cons_self _ _)))
  have hp5 : seq [Regex.wb, litWord "detailed", Regex.wsPlus,
      wordAlt ["research", "analysis", "report"], Regex.wb] ∈ RESEARCH_PATTERNS := by
    unfold RESEARCH_PATTERNS
    exact List.mem_cons_of_mem _ (List.mem_cons_of_mem _ (List.mem_cons_of_mem _
      (List.mem_cons_of_mem _ (List.mem_cons_self _ _))))
  simp only [researchPhrases, List.mem_cons, List.not_mem_nil, or_false] at hph
  rcases hph with rfl | rfl | rfl | rfl | rfl | rfl | rfl | rfl | rfl | rfl | rfl | rfl | rfl | rfl | rfl | rfl | rfl | rfl | rfl
  · -- "deep dive"
    have hdata : ("deep dive").data = "deep".data ++ ' ' :: "dive".data := rfl
    rw [hdata] at hvar
    obtain ⟨v1, rest, rfl, h1, hrest⟩ := forall₂_append_split hvar
    obtain ⟨sp, v2, hspEq, h2, rfl⟩ := List.forall₂_cons_right_iff.mp hrest
    exact detect_research_of_elem hen hp1 hsplit
      (mem_mtch_stemPat "deep" ["dive", "research", "analysis"] (by decide) h1
        (by decide) (by decide) hspEq h2 (by decide) (by decide) hprev hpost)
  · -- "deep research"
    have hdata : ("deep research").data = "deep".data ++ ' ' :: "research".data := rfl
    rw [hdata] at hvar
    obtain ⟨v1, rest, rfl, h1, hrest⟩ := forall₂_append_split hvar
    obtain ⟨sp, v2, hspEq, h2, rfl⟩ := List.forall₂_cons_right_iff.mp hrest
    exact detect_research_of_elem hen hp1 hsplit
      (mem_mtch_stemPat "deep" ["dive", "research", "analysis"] (by decide) h1
        (by decide) (by decide) hspEq h2 (by decide) (by decide) hprev hpost)
  · -- "deep analysis"
    have hdata : ("deep analysis").data = "deep".data ++ ' ' :: "analysis".data := rfl
    rw [hdata] at hvar
    obtain ⟨v1, rest, rfl, h1, hrest⟩ := forall₂_append_split hvar
    obtain ⟨sp, v2, hspEq, h2, rfl⟩ := List.forall₂_cons_right_iff.mp hrest
    exact detect_research_of_elem hen hp1 hsplit
      (mem_mtch_stemPat "deep" ["dive", "research", "analysis"] (by decide) h1
        (by decide) (by decide) hspEq h2 (by decide) (by decide) hprev hpost)
  · -- "comprehensive search"
    have hdata : ("comprehensive search").data = "comprehensive".data ++ ' ' :: "search".data := rfl
    rw [hdata] at hvar
    obtain ⟨v1, rest, rfl, h1, hrest⟩ := forall₂_append_split hvar
    obtain ⟨sp, v2, hspEq, h2, rfl⟩ := List.forall₂_cons_right_iff.mp hrest
    exact detect_research_of_elem hen hp2 hsplit
      (mem_mtch_stemPat "comprehensive" ["search", "research", "analysis"] (by decide) h1
        (by decide) (by decide) hspEq h2 (by decide) (by decide) hprev hpost)
  · -- "comprehensive research"
    have hdata : ("comprehensive research").data = "comprehensive".data ++ ' ' :: "research".data := rfl
    rw [hdata] at hvar
    obtain ⟨v1, rest, rfl, h1, hrest⟩ := forall₂_append_split hvar
    obtain ⟨sp, v2, hspEq, h2, rfl⟩ := List.forall₂_cons_right_iff.mp hrest
    exact detect_research_of_elem hen hp2 hsplit
      (mem_mtch_stemPat "comprehensive" ["search", "research", "analysis"] (by decide) h1
        (by decide) (by decide) hspEq h2 (by decide) (by decide) hprev hpost)
  · -- "comprehensive analysis"
    have hdata : ("comprehensive analysis").data = "comprehensive".data ++ ' ' :: "analysis".data := rfl
    rw [hdata] at hvar
    obtain ⟨v1, rest, rfl, h1, hrest⟩ := forall₂_append_split hvar
    obtain ⟨sp, v2, hspEq, h2, rfl⟩ := List.forall₂_cons_right_iff.mp hrest
    exact detect_research_of_elem hen hp2 hsplit
      (mem_mtch_stemPat "comprehensive" ["search", "research", "analysis"] (by decide) h1
        (by decide) (by decide) hspEq h2 (by decide) (by decide) hprev hpost)
  · -- "thorough research"
    have hdata : ("thorough research").data = "thorough".data ++ (' ' :: "research".data) := rfl
    rw [hdata] at hvar
    obtain ⟨v1, rest1, rfl, h1, hrest1⟩ := forall₂_append_split hvar
    obtain ⟨sp, v2, hspEq, h2, rfl⟩ := List.forall₂_cons_right_iff.mp hrest1
    have helem := mem_mtch_thoroughPat ["research", "investigate", "search"]
      (by decide) h1 (Or.inl rfl) hspEq h2 (by decide) (by decide) hprev hpost
    exact detect_research_of_elem hen hp3 hsplit (by simpa using helem)
  · -- "thorough investigate"
    have hdata : ("thorough investigate").data = "thorough".data ++ (' ' :: "investigate".data) := rfl
    rw [hdata] at hvar
    obtain ⟨v1, rest1, rfl, h1, hrest1⟩ := forall₂_append_split hvar
    obtain ⟨sp, v2, hspEq, h2, rfl⟩ := List.forall₂_cons_right_iff.mp hrest1
    have helem := mem_mtch_thoroughPat ["research", "investigate", "search"]
      (by decide) h1 (Or.inl rfl) hspEq h2 (by decide) (by decide) hprev hpost
    exact detect_research_of_elem hen hp3 hsplit (by simpa using helem)
  · -- "thorough search"
    have hdata : ("thorough search").data = "thorough".data ++ (' ' :: "search".data) := rfl
    rw [hdata] at hvar
    obtain ⟨v1, rest1, rfl, h1, hrest1⟩ := forall₂_append_split hvar
    obtain ⟨sp, v2, hspEq, h2, rfl⟩ := List.forall₂_cons_right_iff.mp hrest1
    have helem := mem_mtch_thoroughPat ["research", "investigate", "search"]
      (by decide) h1 (Or.inl rfl) hspEq h2 (by decide) (by decide) hprev hpost
    exact detect_research_of_elem hen hp3 hsplit (by simpa using helem)
  · -- "thoroughly research"
    have hdata : ("thoroughly research").data = "thorough".data ++ ("ly".data ++ ' ' :: "research".data) := rfl
    rw [hdata] at hvar
    obtain ⟨v1, rest1, rfl, h1, hrest1⟩ := forall₂_append_split hvar
    obtain ⟨vo, rest2, rfl, hvo, hrest2⟩ := forall₂_append_split hrest1
    obtain ⟨sp, v2, hspEq, h2, rfl⟩ := List.forall₂_cons_right_iff.mp hrest2
    exact detect_research_of_elem hen hp3 hsplit
      (mem_mtch_thoroughPat ["research", "investigate", "search"]
        (by decide) h1 (Or.inr hvo) hspEq h2 (by decide) (by decide) hprev hpost)
  · -- "thoroughly investigate"
    have hdata : ("thoroughly investigate").data = "thorough".data ++ ("ly".data ++ ' ' :: "investigate".data) := rfl
    rw [hdata] at hvar
    obtain ⟨v1, rest1, rfl, h1, hrest1⟩ := forall₂_append_split hvar
    obtain ⟨vo, rest2, rfl, hvo, hrest2⟩ := forall₂_append_split hrest1
    obtain ⟨sp, v2, hspEq, h2, rfl⟩ := List.forall₂_cons_right_iff.mp hrest2
    exact detect_research_of_elem hen hp3 hsplit
      (mem_mtch_thoroughPat ["research", "investigate", "search"]
        (by decide) h1 (Or.inr hvo) hspEq h2 (by decide) (by decide) hprev hpost)
  · -- "thoroughly search"
    have hdata : ("thoroughly search").data = "thorough".data ++ ("ly".data ++ ' ' :: "search".data) := rfl
    rw [hdata] at hvar
    obtain ⟨v1, rest1, rfl, h1, hrest1⟩ := forall₂_append_split hvar
    obtain ⟨vo, rest2, rfl, hvo, hrest2⟩ := forall₂_append_split hrest1
    obtain ⟨sp, v2, hspEq, h2, rfl⟩ := List.forall₂_cons_right_iff.mp hrest2
    exact detect_research_of_elem hen hp3 hsplit
      (mem_mtch_thoroughPat ["research", "investigate", "search"]
        (by decide) h1 (Or.inr hvo) hspEq h2 (by decide) (by decide) hprev hpost)
  · -- "in-depth research"
    have hdata : ("in-depth research").data =
        "in".data ++ '-' :: ("depth".data ++ ' ' :: "research".data) := rfl
    rw [hdata] at hvar
    obtain ⟨vi, rest1, rfl, hvi, hrest1⟩ := forall₂_append_split hvar
    obtain ⟨hy, rest2, hhyEq, hrest2, rfl⟩ := List.forall₂_cons_right_iff.mp hrest1
    obtain ⟨vd, rest3, rfl, hvd, hrest3⟩ := forall₂_append_split hrest2
    obtain ⟨sp, v2, hspEq, h2, rfl⟩ := List.forall₂_cons_right_iff.mp hrest3
    exact detect_research_of_elem hen hp4 hsplit
      (mem_mtch_inDepthPat ["research", "analysis"]
        (by decide) hvi (Or.inl hhyEq) hvd hspEq h2 (by decide) (by decide) hprev hpost)
  · -- "in-depth analysis"
    have hdata : ("in-depth analysis").data =
        "in".data ++ '-' :: ("depth".data ++ ' ' :: "analysis".data) := rfl
    rw [hdata] at hvar
    obtain ⟨vi, rest1, rfl, hvi, hrest1⟩ := forall₂_append_split hvar
    obtain ⟨hy, rest2, hhyEq, hrest2, rfl⟩ := List.forall₂_cons_right_iff.mp hrest1
    obtain ⟨vd, rest3, rfl, hvd, hrest3⟩ := forall₂_append_split hrest2
    obtain ⟨sp, v2, hspEq, h2, rfl⟩ := List.forall₂_cons_right_iff.mp hrest3
    exact detect_research_of_elem hen hp4 hsplit
      (mem_mtch_inDepthPat ["research", "analysis"]
        (by decide) hvi (Or.inl hhyEq) hvd hspEq h2 (by decide) (by decide) hprev hpost)
  · -- "in depth research"
    have hdata : ("in depth research").data =
        "in".data ++ ' ' :: ("depth".data ++ ' ' :: "research".data) := rfl
    rw [hdata] at hvar
    obtain ⟨vi, rest1, rfl, hvi, hrest1⟩ := forall₂_append_split hvar
    obtain ⟨hy, rest2, hhyEq, hrest2, rfl⟩ := List.forall₂_cons_right_iff.mp hrest1
    obtain ⟨vd, rest3, rfl, hvd, hrest3⟩ := forall₂_append_split hrest2
    obtain ⟨sp, v2, hspEq, h2, rfl⟩ := List.forall₂_cons_right_iff.mp hrest3
    exact detect_research_of_elem hen hp4 hsplit
      (mem_mtch_inDepthPat ["research", "analysis"]
        (by decide) hvi (Or.inr hhyEq) hvd hspEq h2 (by decide) (by decide) hprev hpost)
  · -- "in depth analysis"
    have hdata : ("in depth analysis").data =
        "in".data ++ ' ' :: ("depth".data ++ ' ' :: "analysis".data) := rfl
    rw [hdata] at hvar
    obtain ⟨vi, rest1, rfl, hvi, hrest1⟩ := forall₂_append_split hvar
    obtain ⟨hy, rest2, hhyEq, hrest2, rfl⟩ := List.forall₂_cons_right_iff.mp hrest1
    obtain ⟨vd, rest3, rfl, hvd, hrest3⟩ := forall₂_append_split hrest2
    obtain ⟨sp, v2, hspEq, h2, rfl⟩ := List.forall₂_cons_right_iff.mp hrest3
    exact detect_research_of_elem hen hp4 hsplit
      (mem_mtch_inDepthPat ["research", "analysis"]
        (by decide) hvi (Or.inr hhyEq) hvd hspEq h2 (by decide) (by decide) hprev hpost)
  · -- "detailed research"
    have hdata : ("detailed research").data = "detailed".data ++ ' ' :: "research".data := rfl
    rw [hdata] at hvar
    obtain ⟨v1, rest, rfl, h1, hrest⟩ := forall₂_append_split hvar
    obtain ⟨sp, v2, hspEq, h2, rfl⟩ := List.forall₂_cons_right_iff.mp hrest
    exact detect_research_of_elem hen hp5 hsplit
      (mem_mtch_stemPat "detailed" ["research", "analysis", "report"] (by decide) h1
        (by decide) (by decide) hspEq h2 (by decide) (by decide) hprev hpost)
  · -- "detailed analysis"
    have hdata : ("detailed analysis").data = "detailed".data ++ ' ' :: "analysis".data := rfl
    rw [hdata] at hvar
    obtain ⟨v1, rest, rfl, h1, hrest⟩ := forall₂_append_split hvar
    obtain ⟨sp, v2, hspEq, h2, rfl⟩ := List.forall₂_cons_right_iff.mp hrest
    exact detect_research_of_elem hen hp5 hsplit
      (mem_mtch_stemPat "detailed" ["research", "analysis", "report"] (by decide) h1
        (by decide) (by decide) hspEq h2 (by decide) (by decide) hprev hpost)
  · -- "detailed report"
    have hdata : ("detailed report").data = "detailed".data ++ ' ' :: "report".data := rfl
    rw [hdata] at hvar
    obtain ⟨v1, rest, rfl, h1, hrest⟩ := forall₂_append_split hvar
    obtain ⟨sp, v2, hspEq, h2, rfl⟩ := List.forall₂_cons_right_iff.mp hrest
    exact detect_research_of_elem hen hp5 hsplit
      (mem_mtch_stemPat "detailed" ["research", "analysis", "report"] (by decide) h1
        (by decide) (by decide) hspEq h2 (by decide) (by decide) hprev hpost)

/-! ### Concrete instances used by witnesses and counterexamples -/

/-- A trivial custom-pattern compiler instance: every pattern string is
rejected (compilation fails). -/
def rc0 : String → Option Regex := fun _ => none

/-- A sample custom-pattern compiler instance: a nonempty all-lowercase
ASCII word compiles to its literal regex; anything else fails to compile
(modelling `new RegExp` throwing). -/
def simpleCompile (s : String) : Option Regex :=
  if s ≠ "" ∧ s.data.all (fun c => decide (97 ≤ c.toNat ∧ c.toNat ≤ 122)) then
    some (litWord s)
  else none

/-- A configuration with detection enabled and no custom patterns. -/
def enabledConfig : PerplexityConfig :=
  { apiKey := "pplx-test", mcpUrl := none, model := none,
    keywords := some { enabled := some true, customPatterns := some [] } }

/-! ### C8 — disabling detection -/

/-- C8: for every message, if keyword detection is disabled in the
configuration (`keywords.enabled` is `false`), `detectKeywords` returns no
match. -/
theorem disabled_detection_no_match
    (rc : String → Option Regex) (cfg : PerplexityConfig) (msg : String)
    (hdis : cfg.keywords.bind KeywordsSettings.enabled = some false) :
    detectKeywords rc cfg msg = none := by
  simp [detectKeywords, hdis]

theorem disabled_detection_no_match_witness :
    detectKeywords rc0
      { apiKey := "pplx-test", mcpUrl := none, model := none,
        keywords := some { enabled := some false, customPatterns := some [] } }
      "Can you search the web for weather?" = none :=
  disabled_detection_no_match rc0 _ _ rfl

/-! ### C1 — the ordered scan and research priority -/

/-- The three pattern groups of `detectKeywords` in their scan order, each
pattern tagged with the category it reports. -/
def taggedPatterns (rc : String → Option Regex) (cfg : PerplexityConfig) :
    List (MatchType × Regex) :=
  RESEARCH_PATTERNS.map (fun p => (MatchType.research, p)) ++
    ((compileCustomPatterns rc cfg).map (fun p => (MatchType.search, p)) ++
      SEARCH_PATTERNS.map (fun p => (MatchType.search, p)))

/-- A single ordered scan over tagged patterns, returning the first match
with its tag. -/
def scanTagged : List (MatchType × Regex) → List Char → Option KeywordMatch
  | [], _ => none
  | (t, p) :: ps, s =>
      match findFrom p none s with
      | some m => some { type := t, matchedText := String.mk m }
      | none => scanTagged ps s

theorem scanTagged_append (l1 l2 : List (MatchType × Regex)) (s : List Char) :
    scanTagged (l1 ++ l2) s =
      match scanTagged l1 s with
      | some m => some m
      | none => scanTagged l2 s := by
  induction l1 with
  | nil => simp [scanTagged]
  | cons q l1' ih =>
      obtain ⟨t, p⟩ := q
      simp only [List.cons_append, scanTagged]
      cases findFrom p none s <;> simp [ih]

theorem scanTagged_map (t : MatchType) (ps : List Regex) (s : List Char) :
    scanTagged (ps.map (fun p => (t, p))) s =
      (scanPatterns ps s).map
        (fun m => { type := t, matchedText := String.mk m }) := by
  induction ps with
  | nil => simp [scanTagged, scanPatterns]
  | cons p ps' ih =>
      simp only [List.map_cons, scanTagged, scanPatterns]
      cases findFrom p none s <;> simp [ih]

/-- C1: with detection enabled, `detectKeywords` is exactly one ordered
scan — research patterns, then compiled custom patterns, then search
patterns — returning the first match with its category and matched text
(first conjunct); in particular, whenever both a research pattern and a
search pattern match the cleaned message, the result carries category
`research` (second conjunct). -/
theorem detect_ordered_scan_research_priority
    (rc : String → Option Regex) (cfg : PerplexityConfig) (msg : String)
    (hen : cfg.keywords.bind KeywordsSettings.enabled = some true) :
    detectKeywords rc cfg msg =
        scanTagged (taggedPatterns rc cfg) (removeCodeBlocks msg).data
    ∧ ((scanPatterns RESEARCH_PATTERNS (removeCodeBlocks msg).data).isSome = true →
       (scanPatterns SEARCH_PATTERNS (removeCodeBlocks msg).data).isSome = true →
       ∃ t, detectKeywords rc cfg msg =
         some { type := MatchType.research, matchedText := t }) := by
  constructor
  · simp only [detectKeywords, hen, if_true, taggedPatterns]
    rw [scanTagged_append, scanTagged_map, scanTagged_append, scanTagged_map,
      scanTagged_map]
    cases scanPatterns RESEARCH_PATTERNS (removeCodeBlocks msg).data <;>
      cases scanPatterns (compileCustomPatterns rc cfg) (removeCodeBlocks msg).data <;>
        cases scanPatterns SEARCH_PATTERNS (removeCodeBlocks msg).data <;>
          simp
  · intro hres _hsea
    exact detectKeywords_research hen hres

theorem detect_ordered_scan_research_priority_witness :
    ∃ t, detectKeywords rc0 enabledConfig "deep dive and search the web" =
      some { type := MatchType.research, matchedText := t } :=
  (detect_ordered_scan_research_priority rc0 enabledConfig
      "deep dive and search the web" rfl).2 (by decide) (by decide)

/-! ### C2 — code spans are stripped before detection -/

/-- C2: fenced and inline code spans are stripped before any pattern is
tried, so a message whose stripped text matches no pattern yields no match
(first conjunct); in particular the spec's example: the inline code span of
`"use `search the web` in your code"` is removed (second conjunct) and
that message produces no match (third conjunct). -/
theorem detect_ignores_code_spans
    (rc : String → Option Regex) (cfg : PerplexityConfig) :
    (∀ msg : String,
        scanPatterns RESEARCH_PATTERNS (removeCodeBlocks msg).data = none →
        scanPatterns (compileCustomPatterns rc cfg) (removeCodeBlocks msg).data = none →
        scanPatterns SEARCH_PATTERNS (removeCodeBlocks msg).data = none →
        detectKeywords rc cfg msg = none)
    ∧ removeCodeBlocks "use `search the web` in your code" = "use  in your code"
    ∧ detectKeywords rc0 enabledConfig "use `search the web` in your code" = none := by
  refine ⟨?_, by decide, by decide⟩
  intro msg h1 h2 h3
  unfold detectKeywords
  split
  · simp [h1, h2, h3]
  · rfl

theorem detect_ignores_code_spans_witness :
    detectKeywords rc0 enabledConfig "just `plain` code" = none :=
  (detect_ignores_code_spans rc0 enabledConfig).1 "just `plain` code"
    (by decide) (by decide) (by decide)

/-! ### C10 — custom-pattern matches are always category `search` -/

/-- C10: when no research pattern matches and a custom pattern produces the
first match, `detectKeywords` reports category `search` with that matched
text, and the hook's template choice for such a match is the search nudge —
custom patterns can never select the research template. -/
theorem custom_pattern_match_is_search
    (rc : String → Option Regex) (cfg : PerplexityConfig) (msg : String) (t : List Char)
    (hen : cfg.keywords.bind KeywordsSettings.enabled = some true)
    (hres : scanPatterns RESEARCH_PATTERNS (removeCodeBlocks msg).data = none)
    (hcus : scanPatterns (compileCustomPatterns rc cfg) (removeCodeBlocks msg).data =
      some t) :
    detectKeywords rc cfg msg =
        some { type := MatchType.search, matchedText := String.mk t }
    ∧ nudgeFor { type := MatchType.search, matchedText := String.mk t } =
        getSearchNudge := by
  constructor
  · simp [detectKeywords, hen, hres, hcus]
  · simp [nudgeFor]

/-- A configuration carrying one custom pattern string. -/
def customConfig : PerplexityConfig :=
  { apiKey := "pplx-test", mcpUrl := none, model := none,
    keywords := some { enabled := some true, customPatterns := some ["needle"] } }

theorem custom_pattern_match_is_search_witness :
    detectKeywords simpleCompile customConfig "my needle here" =
        some { type := MatchType.search, matchedText := String.mk "needle".data }
    ∧ nudgeFor { type := MatchType.search, matchedText := String.mk "needle".data } =
        getSearchNudge :=
  custom_pattern_match_is_search simpleCompile customConfig "my needle here"
    "needle".data rfl (by decide) (by decide)

/-! ### C5 — invalid custom patterns are skipped, not fatal -/

/-- C5: a custom pattern string that fails to compile is skipped by
`compileCustomPatterns`, and detection behaves exactly as it would without
that pattern — in particular the built-in research and search patterns
still match as before. -/
theorem invalid_custom_pattern_skipped
    (rc : String → Option Regex) (apiKey : String) (mcpUrl model : Option String)
    (en : Option Bool) (l1 l2 : List String) (bad : String) (msg : String)
    (hbad : rc bad = none) :
    detectKeywords rc
      { apiKey := apiKey, mcpUrl := mcpUrl, model := model,
        keywords := some { enabled := en, customPatterns := some (l1 ++ bad :: l2) } }
      msg =
    detectKeywords rc
      { apiKey := apiKey, mcpUrl := mcpUrl, model := model,
        keywords := some { enabled := en, customPatterns := some (l1 ++ l2) } }
      msg := by
  have hcomp : (l1 ++ bad :: l2).filterMap rc = (l1 ++ l2).filterMap rc := by
    simp [List.filterMap_append, List.filterMap_cons, hbad]
  simp [detectKeywords, compileCustomPatterns, hcomp]

theorem invalid_custom_pattern_skipped_witness :
    detectKeywords simpleCompile
      { apiKey := "pplx-test", mcpUrl := none, model := none,
        keywords := some { enabled := some true,
                           customPatterns := some (["[oops("] : List String) } }
      "please search the web" =
    detectKeywords simpleCompile
      { apiKey := "pplx-test", mcpUrl := none, model := none,
        keywords := some { enabled := some true,
                           customPatterns := some ([] : List String) } }
      "please search the web" :=
  invalid_custom_pattern_skipped simpleCompile "pplx-test" none none (some true)
    [] [] "[oops(" "please search the web" (by decide)

/-! ### C3 — the hook boundary catches every exception -/

/-- C3: the `chat.message` hook never propagates an exception to the host:
its result type is a plain part list (the handler is total), and when the
message processing step throws, the exception is caught at the hook
boundary and the hook returns with the output parts exactly as they were —
no nudge segment is appended. -/
theorem hook_catches_exceptions
    (cfg : PerplexityConfig) (now : Nat) (sid mid : String)
    (parts : List MessagePart) (e : String) :
    chatMessage cfg (fun _ => Except.error e) now sid mid parts = parts := by
  cases hc : isConfigured cfg
  · simp [chatMessage, hc]
  · simp only [chatMessage, hc, if_true]
    by_cases h1 : (parts.filter (fun p => p.ptype == "text")).isEmpty = true
    · simp [hookBody, h1]
    · have h1f : (parts.filter (fun p => p.ptype == "text")).isEmpty = false := by
        simpa using h1
      by_cases h2 : (jsTrim (String.intercalate "\n"
          ((parts.filter (fun p => p.ptype == "text")).map MessagePart.text)) == "") = true
      · simp [hookBody, h1f, h2]
      · have h2f : (jsTrim (String.intercalate "\n"
            ((parts.filter (fun p => p.ptype == "text")).map MessagePart.text)) == "") =
              false := by simpa using h2
        simp [hookBody, h1f, h2f]

/-! ### C7 — which API key wins (corrected) -/

/-- C7 counterexample: with both the file's `apiKey` and the
`PERPLEXITY_API_KEY` environment variable set, `loadConfig` uses the
file's value, not the environment variable's — refuting the claim that
the environment variable overrides the file. -/
theorem file_api_key_beats_env :
    (loadConfig
        { apiKey := some "pplx-file", mcpUrl := none, model := none, keywords := none }
        (some "pplx-env") none none).apiKey = "pplx-file"
    ∧ ("pplx-file" : String) ≠ "pplx-env" := by
  constructor
  · rfl
  · decide

/-- C7 amended: `loadConfig` computes the API key as
`fileConfig.apiKey || env || ""`, so when the file's `apiKey` is set and
nonempty it wins over the environment variable, and the environment
variable is used only when the file's value is absent or empty. -/
theorem loadConfig_api_key_precedence
    (fc : FileConfig) (envA envM envMo : Option String) :
    (∀ k, fc.apiKey = some k → k ≠ "" →
        (loadConfig fc envA envM envMo).apiKey = k)
    ∧ ((fc.apiKey = none ∨ fc.apiKey = some "") →
        (loadConfig fc envA envM envMo).apiKey = jsOrStr envA "") := by
  constructor
  · intro k hk hne
    simp [loadConfig, jsOrStr, hk, hne]
  · rintro (h | h) <;> simp [loadConfig, jsOrStr, h]

theorem loadConfig_api_key_precedence_witness :
    (loadConfig
        { apiKey := some "pplx-file", mcpUrl := none, model := none, keywords := none }
        (some "pplx-env") none none).apiKey = "pplx-file" :=
  (loadConfig_api_key_precedence
      { apiKey := some "pplx-file", mcpUrl := none, model := none, keywords := none }
      (some "pplx-env") none none).1 "pplx-file" rfl (by decide)

/-! ### C4 — the hook only ever appends one synthetic part -/

/-- The concatenation of the text parts the hook builds its message from. -/
def joinedText (parts : List MessagePart) : String :=
  String.intercalate "\n" ((parts.filter (fun p => p.ptype == "text")).map MessagePart.text)

/-- C4: the hook never mutates, reorders or removes the existing segments:
its result is either the part list unchanged or that list with exactly one
new part appended at the end — a synthetic text part whose text is the
nudge for the detected match and whose id is the synthesised
`perplexity-<type>-nudge-<timestamp>` identifier (first conjunct).  When
the handler reaches detection and the detector matches, exactly that one
part is appended (second conjunct, first half); when the detector does not
match, the list is returned unchanged (second half). -/
theorem hook_appends_one_synthetic_part
    (cfg : PerplexityConfig) (rc : String → Option Regex) (now : Nat)
    (sid mid : String) (parts : List MessagePart) :
    (chatMessage cfg (pluginDet rc cfg) now sid mid parts = parts ∨
      ∃ m, detectKeywords rc cfg (joinedText parts) = some m ∧
        chatMessage cfg (pluginDet rc cfg) now sid mid parts =
          parts ++ [mkNudgePart m now sid mid] ∧
        (mkNudgePart m now sid mid).synthetic = true ∧
        (mkNudgePart m now sid mid).ptype = "text" ∧
        (mkNudgePart m now sid mid).text = nudgeFor m ∧
        (mkNudgePart m now sid mid).id =
          "perplexity-" ++ m.type.str ++ "-nudge-" ++ toString now)
    ∧ (isConfigured cfg = true →
        (parts.filter (fun p => p.ptype == "text")).isEmpty = false →
        (jsTrim (joinedText parts) == "") = false →
        ((∀ m, detectKeywords rc cfg (joinedText parts) = some m →
            chatMessage cfg (pluginDet rc cfg) now sid mid parts =
              parts ++ [mkNudgePart m now sid mid]) ∧
          (detectKeywords rc cfg (joinedText parts) = none →
            chatMessage cfg (pluginDet rc cfg) now sid mid parts = parts))) := by
  cases hc : isConfigured cfg
  · constructor
    · left
      simp [chatMessage, hc]
    · intro h1 _ _
      simp at h1
  · by_cases h1 : (parts.filter (fun p => p.ptype == "text")).isEmpty = true
    · constructor
      · left
        simp [chatMessage, hc, hookBody, h1]
      · intro _ h1' _
        rw [h1] at h1'
        cases h1'
    · have h1f : (parts.filter (fun p => p.ptype == "text")).isEmpty = false := by
        simpa using h1
      by_cases h2 : (jsTrim (joinedText parts) == "") = true
      · constructor
        · left
          simp only [joinedText] at h2
          simp [chatMessage, hc, hookBody, h1f, h2]
        · intro _ _ h2'
          rw [h2] at h2'
          cases h2'
      · have h2f : (jsTrim (joinedText parts) == "") = false := by simpa using h2
        have h2f' : (jsTrim (String.intercalate "\n"
            ((parts.filter (fun p => p.ptype == "text")).map MessagePart.text)) == "") =
              false := h2f
        cases hdet : detectKeywords rc cfg (joinedText parts) with
        | none =>
            have hdet' : detectKeywords rc cfg (String.intercalate "\n"
                ((parts.filter (fun p => p.ptype == "text")).map MessagePart.text)) =
                  none := hdet
            constructor
            · left
              simp [chatMessage, hc, hookBody, h1f, h2f', pluginDet, hdet']
            · intro _ _ _
              constructor
              · intro m hm
                simp at hm
              · intro _
                simp [chatMessage, hc, hookBody, h1f, h2f', pluginDet, hdet']
        | some m =>
            have hdet' : detectKeywords rc cfg (String.intercalate "\n"
                ((parts.filter (fun p => p.ptype == "text")).map MessagePart.text)) =
                  some m := hdet
            constructor
            · right
              exact ⟨m, rfl,
                by simp [chatMessage, hc, hookBody, h1f, h2f', pluginDet, hdet'],
                rfl, rfl, rfl, rfl⟩
            · intro _ _ _
              constructor
              · intro m' hm'
                cases hm'
                simp [chatMessage, hc, hookBody, h1f, h2f', pluginDet, hdet']
              · intro hnone
                simp at hnone
/-- A sample user-authored text part. -/
def samplePart : MessagePart :=
  { id := "p1", sessionID := "s", messageID := "m", ptype := "text",
    text := "do a deep dive", synthetic := false }

theorem hook_appends_one_synthetic_part_witness :
    chatMessage enabledConfig (pluginDet rc0 enabledConfig) 42 "s" "m" [samplePart] =
      [samplePart] ++
        [mkNudgePart { type := MatchType.research, matchedText := "deep dive" } 42 "s" "m"] :=
  ((hook_appends_one_synthetic_part enabledConfig rc0 42 "s" "m" [samplePart]).2
      rfl (by decide) (by decide)).1
    { type := MatchType.research, matchedText := "deep dive" } (by decide)

/-! ### C6 — installer idempotence (corrected) -/

theorem containsSub_append (n pre t : List Char)
    (h : containsSub n t = true) : containsSub n (pre ++ t) = true := by
  induction pre with
  | nil => simpa using h
  | cons c rest ih => simp [containsSub, ih]

theorem addPluginToConfig_has (c : OpencodeConfig) :
    (addPluginToConfig c).plugin.any (fun p => hasSubstr "perplexity-opencode" p) =
      true := by
  unfold addPluginToConfig
  split
  · assumption
  · simp only [List.any_append]
    have : hasSubstr "perplexity-opencode" PLUGIN_NAME = true := by decide
    simp [this]

theorem addPluginToConfig_of_has (c : OpencodeConfig)
    (h : c.plugin.any (fun p => hasSubstr "perplexity-opencode" p) = true) :
    addPluginToConfig c = c := by
  simp [addPluginToConfig, h]

theorem addMcpServerToConfig_plugin (c : OpencodeConfig) :
    (addMcpServerToConfig c).plugin = c.plugin := by
  unfold addMcpServerToConfig
  split <;> rfl

theorem addMcpServerToConfig_has (c : OpencodeConfig) :
    (addMcpServerToConfig c).mcp.contains "perplexity" = true := by
  unfold addMcpServerToConfig
  split
  · assumption
  · simp

theorem addMcpServerToConfig_of_has (c : OpencodeConfig)
    (h : c.mcp.contains "perplexity" = true) :
    addMcpServerToConfig c = c := by
  unfold addMcpServerToConfig
  rw [h]
  simp

/-- The effect of the installer on `perplexity.json`: an unconditional
overwrite whenever an API key is provided. -/
def stepPj (k : String) (p : Option String) : Option String :=
  if k = "" then p else some (perplexityConfigContent k)

/-- The effect of the installer on the host config. -/
def stepOc (k : String) (o : Option OpencodeConfig) : Option OpencodeConfig :=
  match o with
  | some c => some (if k = "" then addPluginToConfig c
                    else addMcpServerToConfig (addPluginToConfig c))
  | none => if k = "" then none else some createNewConfig

/-- The effect of the installer on `AGENTS.md`. -/
def stepAg (a : Option String) : Option String :=
  match a with
  | none => some (jsTrim PERPLEXITY_AGENTS_INSTRUCTIONS ++ "\n")
  | some content =>
      if hasSubstr "# How to use Perplexity" content then some content
      else some (jsTrimEnd content ++ "\n\n" ++ jsTrim PERPLEXITY_AGENTS_INSTRUCTIONS ++ "\n")

theorem runInstall_eq_fields (k : String) (st : InstallState) :
    runInstall k st =
      { perplexityJson := stepPj k st.perplexityJson,
        opencodeConfig := stepOc k st.opencodeConfig,
        agentsMd := stepAg st.agentsMd } := by
  obtain ⟨pj, oc, ag⟩ := st
  by_cases hk : k = "" <;> cases oc <;> cases ag <;>
    simp only [runInstall, createPerplexityConfig, updateAgentsMd, stepPj, stepOc,
      stepAg, hk, if_true, if_false, reduceIte] <;>
    split <;> rfl

theorem stepPj_idem (k : String) (p : Option String) :
    stepPj k (stepPj k p) = stepPj k p := by
  by_cases hk : k = "" <;> simp [stepPj, hk]

theorem stepOc_idem (k : String) (o : Option OpencodeConfig) :
    stepOc k (stepOc k o) = stepOc k o := by
  cases o with
  | none =>
      by_cases hk : k = ""
      · simp [stepOc, hk]
      · simp only [stepOc, hk, if_false, reduceIte]
        rw [addPluginToConfig_of_has _ (by decide),
          addMcpServerToConfig_of_has _ (by decide)]
  | some c =>
      by_cases hk : k = ""
      · simp only [stepOc, hk, if_true, reduceIte]
        rw [addPluginToConfig_of_has _ (addPluginToConfig_has c)]
      · simp only [stepOc, hk, if_false, reduceIte]
        have h1 : addPluginToConfig (addMcpServerToConfig (addPluginToConfig c)) =
            addMcpServerToConfig (addPluginToConfig c) := by
          apply addPluginToConfig_of_has
          rw [addMcpServerToConfig_plugin]
          exact addPluginToConfig_has c
        rw [h1, addMcpServerToConfig_of_has _ (addMcpServerToConfig_has _)]

theorem heading_in_appended (content : String) :
    hasSubstr "# How to use Perplexity"
      (jsTrimEnd content ++ "\n\n" ++ jsTrim PERPLEXITY_AGENTS_INSTRUCTIONS ++ "\n") =
      true := by
  unfold hasSubstr
  have hd : (jsTrimEnd content ++ "\n\n" ++ jsTrim PERPLEXITY_AGENTS_INSTRUCTIONS ++
      "\n").data =
      (jsTrimEnd content).data ++
        (("\n\n" : String).data ++
          ((jsTrim PERPLEXITY_AGENTS_INSTRUCTIONS).data ++ ("\n" : String).data)) := by
    simp [String.data_append]
  rw [hd]
  apply containsSub_append
  decide

theorem stepAg_idem (a : Option String) : stepAg (stepAg a) = stepAg a := by
  cases a with
  | none =>
      have h : hasSubstr "# How to use Perplexity"
          (jsTrim PERPLEXITY_AGENTS_INSTRUCTIONS ++ "\n") = true := by decide
      simp [stepAg, h]
  | some content =>
      by_cases h : hasSubstr "# How to use Perplexity" content = true
      · simp [stepAg, h]
      · have hf : hasSubstr "# How to use Perplexity" content = false := by simpa using h
        simp [stepAg, hf, heading_in_appended]

/-- C6 counterexample: the claim says the installer writes the local
settings file `perplexity.json` only if absent; in fact
`createPerplexityConfig` writes it unconditionally, so running the
installer over a state where the file already exists (with content `"OLD"`)
replaces it. -/
theorem installer_rewrites_existing_settings :
    (runInstall "pplx-k"
        { perplexityJson := some "OLD",
          opencodeConfig := some { plugin := [PLUGIN_NAME], mcp := ["perplexity"] },
          agentsMd := some (jsTrim PERPLEXITY_AGENTS_INSTRUCTIONS ++ "\n") }).perplexityJson =
      some (perplexityConfigContent "pplx-k")
    ∧ perplexityConfigContent "pplx-k" ≠ "OLD" := by
  constructor
  · rw [runInstall_eq_fields]
    rfl
  · decide

/-- C6 amended: the plugin-registration, MCP-server and `AGENTS.md` steps
each check for prior presence and no-op, while `perplexity.json` is
(re)written unconditionally with content depending only on the API key —
so re-running the installer on an already-configured environment changes
nothing and duplicates no entry: the installer is idempotent. -/
theorem runInstall_idempotent (k : String) (st : InstallState) :
    runInstall k (runInstall k st) = runInstall k st := by
  rw [runInstall_eq_fields k st, runInstall_eq_fields]
  simp [stepPj_idem, stepOc_idem, stepAg_idem]

theorem research_phrase_yields_research_witness :
    ∃ t, detectKeywords rc0 enabledConfig "Do a DEEP DiVe now" =
      some { type := MatchType.research, matchedText := t } :=
  research_phrase_yields_research rc0 enabledConfig "Do a DEEP DiVe now"
    "deep dive" (by decide) ("DEEP DiVe").data ("Do a ").data (" now").data
    (by decide) (by decide) (by decide) (by decide) rfl
